import Mathlib

/-!
Verification of the presentation-server repository: a one-shot Seeder
(`seedSlides`) that inserts JSON files from a directory into a document
store, and a read-only Query Service (`src/api/slideRoutes.js`) with two
routes: list all slides and get a slide by identifier.

The document store (mongoose/MongoDB) is an external collaborator; it is
modelled as a list of documents with a monotone identifier counter.  The
JSON payload of a slide is pass-through data for this system, modelled by
a small JSON value type.
-/

/-- A JSON value, the parsed content of one slide file.  The system treats
it as opaque pass-through data. -/
inductive Json where
  | null : Json
  | bool (b : Bool) : Json
  | num (n : Int) : Json
  | str (s : String) : Json
  | arr (xs : List Json) : Json
  | obj (fs : List (String × Json)) : Json

/-- A persisted Slide document: the store-assigned identifier plus the
JSON payload it was created from. -/
structure Slide where
  id : Nat
  data : Json

/-- The document store's slide collection: documents in insertion order,
plus the counter from which the next store-assigned identifier is taken. -/
structure Store where
  slides : List Slide
  nextId : Nat

/-- The store before any document has been inserted. -/
def Store.empty : Store := ⟨[], 0⟩

/-- `Slide.create(data)`: insert one new document built from `data`, with a
fresh store-assigned identifier; returns the created document and the
updated store. -/
def Store.create (st : Store) (d : Json) : Slide × Store :=
  let sl : Slide := ⟨st.nextId, d⟩
  (sl, ⟨st.slides ++ [sl], st.nextId + 1⟩)

/-- `Slide.find()`: return every persisted document, store unchanged. -/
def Store.findAll (st : Store) : List Slide × Store :=
  (st.slides, st)

/-- `Slide.findById(n)`: return the document whose identifier is `n`, if
any, store unchanged. -/
def Store.findById (st : Store) (n : Nat) : Option Slide × Store :=
  (st.slides.find? (fun sl => sl.id == n), st)

/-! ## Query Service (src/api/slideRoutes.js) -/

/-- The JSON body of an HTTP response from the slide routes. -/
inductive Body where
  /-- `res.json(slides)`: a JSON array of slide documents. -/
  | slideList (xs : List Slide)
  /-- `res.json(slide)`: a single slide document. -/
  | slideDoc (s : Slide)
  /-- `res.json({ error: msg })`. -/
  | errObj (msg : String)
  /-- `res.json({ message: msg })`. -/
  | msgObj (msg : String)

/-- An HTTP response: status code and JSON body. -/
structure Response where
  status : Nat
  body : Body

/-- The identifier string of a `/:id` request, as the store's identifier
cast sees it: either a string in the store's identifier format, denoting
identifier `n`, or a string the cast rejects. -/
inductive ReqId where
  | valid (n : Nat)
  | malformed (s : String)

/-- The error message of the store's failed identifier cast. -/
def castErrMsg (s : String) : String :=
  "Cast to ObjectId failed for value " ++ s

/-- `router.get("/")`: list all slides.  `dbErr` models whether the store
call itself fails (e.g. lost connection): `some msg` makes `Slide.find()`
throw with message `msg`.  Returns the response and the store afterwards. -/
def getAllSlides (dbErr : Option String) (st : Store) : Response × Store :=
  match dbErr with
  | some msg => (⟨500, Body.errObj msg⟩, st)
  | none =>
    let (slides, st') := st.findAll
    (⟨200, Body.slideList slides⟩, st')

/-- `router.get("/:id")`: get one slide by identifier.  A malformed
identifier makes `Slide.findById` throw its cast error; a missing document
yields 404 with `{message: "Slide not found"}`. -/
def getSlideById (dbErr : Option String) (st : Store) (rid : ReqId) :
    Response × Store :=
  match dbErr with
  | some msg => (⟨500, Body.errObj msg⟩, st)
  | none =>
    match rid with
    | ReqId.malformed s => (⟨500, Body.errObj (castErrMsg s)⟩, st)
    | ReqId.valid n =>
      let (found, st') := st.findById n
      match found with
      | none => (⟨404, Body.msgObj "Slide not found"⟩, st')
      | some sl => (⟨200, Body.slideDoc sl⟩, st')

/-! ## Seeder (seedSlides) -/

/-- One entry of the slides directory: its file name, the result of
`JSON.parse(fs.readFileSync(...))` (`Except.error` when reading or parsing
throws), and whether `Slide.create` rejects for this document. -/
structure FileEntry where
  name : String
  parsed : Except String Json
  insertErr : Option String

/-- The Seeder's environment: whether `mongoose.connect` fails, the
directory listing in directory order, and whether
`mongoose.connection.close()` fails. -/
structure SeedEnv where
  connectErr : Option String
  dirEntries : List FileEntry
  closeErr : Option String

/-- The console signals the Seeder emits. -/
inductive LogEvent where
  | connected
  | foundFiles (n : Nat)
  | warnNoFiles
  | inserted (name : String)
  | success
  | seedError (msg : String)

/-- What a completed (non-rejected) Seeder run leaves behind: the store,
the emitted log, whether the connection was closed, and the error the
top-level catch handled, if any. -/
structure SeedOutcome where
  store : Store
  log : List LogEvent
  closed : Bool
  caughtError : Option String

/-- `f.endsWith(".json")` at the character level: `suff` is a suffix of
`s`. -/
def strEndsWith (s suff : String) : Bool :=
  suff.data.isSuffixOf s.data

/-- The Seeder's qualifying-file filter: `f => f.endsWith(".json")`. -/
def qualifies (f : FileEntry) : Bool :=
  strEndsWith f.name ".json"

/-- The Seeder's per-file loop: for each file, parse it and insert the
parsed document, logging the insertion; the first throw (read/parse or
insertion) stops the loop.  Returns the store, the log so far, and the
error that stopped the loop, if any. -/
def seedLoop : List FileEntry → Store → List LogEvent →
    Store × List LogEvent × Option String
  | [], st, log => (st, log, none)
  | f :: rest, st, log =>
    match f.parsed with
    | Except.error e => (st, log, some e)
    | Except.ok d =>
      match f.insertErr with
      | some e => (st, log, some e)
      | none =>
        let (_, st') := st.create d
        seedLoop rest st' (log ++ [LogEvent.inserted f.name])

/-- The Seeder's catch handler: log the error and close the connection.
If that close itself fails, `seedSlides` rejects (`Except.error`). -/
def closeInCatch (env : SeedEnv) (st : Store) (log : List LogEvent)
    (e : String) : Except String SeedOutcome :=
  match env.closeErr with
  | some ce => Except.error ce
  | none => Except.ok ⟨st, log ++ [LogEvent.seedError e], true, some e⟩

/-- `seedSlides()`: connect, list the `.json` files, warn and return if
there are none, otherwise insert each file in order and close; any error
is handled once by the top-level catch, which closes the connection.
`Except.error` is an unhandled rejection of the run. -/
def seedSlides (env : SeedEnv) (st : Store) : Except String SeedOutcome :=
  match env.connectErr with
  | some e => closeInCatch env st [] e
  | none =>
    let files := env.dirEntries.filter qualifies
    let log := [LogEvent.connected, LogEvent.foundFiles files.length]
    if files.length = 0 then
      Except.ok ⟨st, log ++ [LogEvent.warnNoFiles], false, none⟩
    else
      match seedLoop files st log with
      | (st', log', some e) => closeInCatch env st' log' e
      | (st', log', none) =>
        match env.closeErr with
        | some ce => Except.error ce
        | none => Except.ok ⟨st', log' ++ [LogEvent.success], true, none⟩

/-! ## Specification helpers -/

/-- The documents a run of the insertion loop appends when every file
succeeds: the parsed payloads `ds` paired with consecutive store-assigned
identifiers starting at `start`. -/
def seededSlides (start : Nat) : List Json → List Slide
  | [] => []
  | d :: ds => ⟨start, d⟩ :: seededSlides (start + 1) ds

/-- The file names the log reports as inserted, in order. -/
def insertedNames (log : List LogEvent) : List String :=
  log.filterMap (fun ev =>
    match ev with
    | LogEvent.inserted n => some n
    | _ => none)

/-- File `f` fails with error `e`: either reading/parsing throws `e`, or
it parses and the insertion rejects with `e`. -/
def failsWith (f : FileEntry) (e : String) : Prop :=
  f.parsed = Except.error e ∨
    ((∃ d, f.parsed = Except.ok d) ∧ f.insertErr = some e)

/-! ## Helper lemmas -/

lemma seededSlides_map_data (start : Nat) (ds : List Json) :
    (seededSlides start ds).map Slide.data = ds := by
  induction ds generalizing start with
  | nil => rfl
  | cons d ds ih => simp [seededSlides, ih]

lemma seededSlides_length (start : Nat) (ds : List Json) :
    (seededSlides start ds).length = ds.length := by
  induction ds generalizing start with
  | nil => rfl
  | cons d ds ih => simp [seededSlides, ih]

lemma seededSlides_map_id (start : Nat) (ds : List Json) :
    (seededSlides start ds).map Slide.id = List.range' start ds.length := by
  induction ds generalizing start with
  | nil => rfl
  | cons d ds ih => simp [seededSlides, ih, List.range']

lemma seedLoop_ok (files : List FileEntry) (ds : List Json) (st : Store)
    (log : List LogEvent)
    (hp : files.map FileEntry.parsed = ds.map Except.ok)
    (hi : ∀ f ∈ files, f.insertErr = none) :
    seedLoop files st log =
      (⟨st.slides ++ seededSlides st.nextId ds, st.nextId + ds.length⟩,
       log ++ files.map (fun f => LogEvent.inserted f.name), none) := by
  induction files generalizing ds st log with
  | nil =>
    cases ds with
    | nil => simp [seedLoop, seededSlides]
    | cons d ds => simp at hp
  | cons f rest ih =>
    cases ds with
    | nil => simp at hp
    | cons d ds =>
      simp only [List.map_cons, List.cons.injEq] at hp
      obtain ⟨hp1, hp2⟩ := hp
      have hi1 : f.insertErr = none := hi f (by simp)
      have hi2 : ∀ g ∈ rest, g.insertErr = none := fun g hg => hi g (by simp [hg])
      simp only [seedLoop, hp1, hi1, Store.create]
      rw [ih ds _ _ hp2 hi2]
      simp [seededSlides, List.append_assoc]
      omega

lemma seedLoop_err (good : List FileEntry) (bad : FileEntry)
    (rest : List FileEntry) (ds : List Json) (e : String) (st : Store)
    (log : List LogEvent)
    (hp : good.map FileEntry.parsed = ds.map Except.ok)
    (hi : ∀ f ∈ good, f.insertErr = none)
    (hbad : failsWith bad e) :
    seedLoop (good ++ bad :: rest) st log =
      (⟨st.slides ++ seededSlides st.nextId ds, st.nextId + ds.length⟩,
       log ++ good.map (fun f => LogEvent.inserted f.name), some e) := by
  induction good generalizing ds st log with
  | nil =>
    cases ds with
    | cons d ds => simp at hp
    | nil =>
      rcases hbad with h | ⟨⟨d, hd⟩, hins⟩
      · simp [seedLoop, h, seededSlides]
      · simp [seedLoop, hd, hins, seededSlides]
  | cons f good' ih =>
    cases ds with
    | nil => simp at hp
    | cons d ds =>
      simp only [List.map_cons, List.cons.injEq] at hp
      obtain ⟨hp1, hp2⟩ := hp
      have hi1 : f.insertErr = none := hi f (by simp)
      have hi2 : ∀ g ∈ good', g.insertErr = none := fun g hg => hi g (by simp [hg])
      simp only [List.cons_append, seedLoop, hp1, hi1, Store.create]
      simp only [List.append_eq]
      rw [ih ds _ _ hp2 hi2]
      simp [seededSlides, List.append_assoc]
      omega

lemma find?_id_eq_self_of_nodup (slides : List Slide) (sl : Slide)
    (hnd : (slides.map Slide.id).Nodup) (hmem : sl ∈ slides) :
    slides.find? (fun x => x.id == sl.id) = some sl := by
  induction slides with
  | nil => cases hmem
  | cons a rest ih =>
    simp only [List.map_cons, List.nodup_cons] at hnd
    rcases List.mem_cons.mp hmem with rfl | hmem'
    · exact List.find?_cons_of_pos rest (by simp)
    · have hne : (a.id == sl.id) = false := by
        refine beq_eq_false_iff_ne.mpr ?_
        intro h
        exact hnd.1 (h ▸ List.mem_map_of_mem Slide.id hmem')
      rw [List.find?_cons_of_neg rest (by simp [hne]), ih hnd.2 hmem']

lemma insertedNames_map_inserted (files : List FileEntry) :
    insertedNames (files.map (fun f => LogEvent.inserted f.name)) =
      files.map FileEntry.name := by
  induction files with
  | nil => rfl
  | cons f rest ih =>
    simp only [List.map_cons, insertedNames, List.filterMap_cons] at *
    exact congrArg (f.name :: ·) ih

lemma seedSlides_ok_run (env : SeedEnv) (st : Store) (ds : List Json)
    (hc : env.connectErr = none) (hcl : env.closeErr = none)
    (hp : (env.dirEntries.filter qualifies).map FileEntry.parsed =
      ds.map Except.ok)
    (hi : ∀ f ∈ env.dirEntries.filter qualifies, f.insertErr = none)
    (hne : (env.dirEntries.filter qualifies).length ≠ 0) :
    seedSlides env st = Except.ok
      ⟨⟨st.slides ++ seededSlides st.nextId ds, st.nextId + ds.length⟩,
       [LogEvent.connected,
        LogEvent.foundFiles (env.dirEntries.filter qualifies).length]
         ++ (env.dirEntries.filter qualifies).map
              (fun f => LogEvent.inserted f.name)
         ++ [LogEvent.success],
       true, none⟩ := by
  simp only [seedSlides, hc]
  rw [if_neg hne, seedLoop_ok _ ds st _ hp hi, hcl]

/-! ## Claim theorems -/

/-- **C1.** For every directory of files each containing one valid JSON
value, after a Seeder run that completes without error, the Query
Service's List operation returns a collection with exactly one entry per
file whose name ends in ".json", and each entry is structurally equal to
that file's parsed JSON content apart from the store-assigned identifier
added at insertion. -/
theorem seed_then_list_returns_all_files (env : SeedEnv) (ds : List Json)
    (hc : env.connectErr = none) (hcl : env.closeErr = none)
    (hp : (env.dirEntries.filter qualifies).map FileEntry.parsed =
      ds.map Except.ok)
    (hi : ∀ f ∈ env.dirEntries.filter qualifies, f.insertErr = none) :
    ∃ out : SeedOutcome,
      seedSlides env Store.empty = Except.ok out ∧
      out.caughtError = none ∧
      (getAllSlides none out.store).1 =
        ⟨200, Body.slideList out.store.slides⟩ ∧
      out.store.slides.length = (env.dirEntries.filter qualifies).length ∧
      out.store.slides.map Slide.data = ds := by
  have hlen : (env.dirEntries.filter qualifies).length = ds.length := by
    have := congrArg List.length hp
    simpa using this
  by_cases hne : (env.dirEntries.filter qualifies).length = 0
  · have hfil : env.dirEntries.filter qualifies = [] :=
      List.length_eq_zero.mp hne
    have hds : ds = [] := by
      have : ds.length = 0 := by omega
      exact List.length_eq_zero.mp this
    refine ⟨⟨Store.empty,
      [LogEvent.connected, LogEvent.foundFiles 0, LogEvent.warnNoFiles],
      false, none⟩, ?_, rfl, rfl, ?_, ?_⟩
    · simp [seedSlides, hc, hfil]
    · simp [Store.empty, hfil]
    · simp [Store.empty, hds]
  · refine ⟨_, seedSlides_ok_run env Store.empty ds hc hcl hp hi hne,
      rfl, rfl, ?_, ?_⟩
    · simp [Store.empty, seededSlides_length, hlen]
    · simp [Store.empty, seededSlides_map_data]

/-- **C2.** For every Seeder run in which processing the Nth qualifying
file raises an error (connection failure already excluded by reaching the
loop: malformed JSON or insertion error), the run aborts immediately:
files 1..N-1 remain persisted (no rollback), file N and all later files
are not attempted (the store holds exactly the first N-1 documents and
only they are logged as inserted), the error is reported, the connection
is released, and the run ends. -/
theorem seed_aborts_on_first_error (env : SeedEnv) (good : List FileEntry)
    (bad : FileEntry) (rest : List FileEntry) (ds : List Json) (e : String)
    (hc : env.connectErr = none) (hcl : env.closeErr = none)
    (hsplit : env.dirEntries.filter qualifies = good ++ bad :: rest)
    (hp : good.map FileEntry.parsed = ds.map Except.ok)
    (hi : ∀ f ∈ good, f.insertErr = none)
    (hbad : failsWith bad e) :
    seedSlides env Store.empty = Except.ok
      ⟨⟨seededSlides 0 ds, ds.length⟩,
       [LogEvent.connected,
        LogEvent.foundFiles (good ++ bad :: rest).length]
         ++ good.map (fun f => LogEvent.inserted f.name)
         ++ [LogEvent.seedError e],
       true, some e⟩ ∧
      (seededSlides 0 ds).map Slide.data = ds ∧
      ds.length = good.length := by
  have hlen : good.length = ds.length := by
    have := congrArg List.length hp
    simpa using this
  refine ⟨?_, seededSlides_map_data 0 ds, hlen.symm⟩
  have hne : (env.dirEntries.filter qualifies).length ≠ 0 := by
    rw [hsplit]; simp
  simp only [seedSlides, hc, hsplit] at *
  rw [if_neg hne, seedLoop_err good bad rest ds e Store.empty _ hp hi hbad,
    hcl]
  simp [Store.empty, closeInCatch, hcl]

/-- **C3.** The Seeder is not idempotent: running it twice in succession
over the same qualifying files inserts each file's document again with a
new identity, so the persisted document count after the second run is
double the count after the first, the payloads are duplicated, and all
identifiers are still pairwise distinct. -/
theorem seed_not_idempotent (env : SeedEnv) (ds : List Json)
    (hc : env.connectErr = none) (hcl : env.closeErr = none)
    (hp : (env.dirEntries.filter qualifies).map FileEntry.parsed =
      ds.map Except.ok)
    (hi : ∀ f ∈ env.dirEntries.filter qualifies, f.insertErr = none) :
    ∃ out1 out2 : SeedOutcome,
      seedSlides env Store.empty = Except.ok out1 ∧
      seedSlides env out1.store = Except.ok out2 ∧
      out2.store.slides.length = 2 * out1.store.slides.length ∧
      out1.store.slides.map Slide.data = ds ∧
      out2.store.slides.map Slide.data = ds ++ ds ∧
      (out2.store.slides.map Slide.id).Nodup := by
  by_cases hne : (env.dirEntries.filter qualifies).length = 0
  · have hfil : env.dirEntries.filter qualifies = [] :=
      List.length_eq_zero.mp hne
    have hds : ds = [] := by
      rw [hfil] at hp
      cases ds with
      | nil => rfl
      | cons d ds => simp at hp
    subst hds
    refine ⟨⟨Store.empty,
      [LogEvent.connected, LogEvent.foundFiles 0, LogEvent.warnNoFiles],
      false, none⟩, ⟨Store.empty,
      [LogEvent.connected, LogEvent.foundFiles 0, LogEvent.warnNoFiles],
      false, none⟩, ?_, ?_, ?_, ?_, ?_, ?_⟩ <;>
      simp [seedSlides, hc, hfil, Store.empty]
  · refine ⟨_, _, seedSlides_ok_run env Store.empty ds hc hcl hp hi hne,
      seedSlides_ok_run env _ ds hc hcl hp hi hne, ?_, ?_, ?_, ?_⟩
    · simp [Store.empty, seededSlides_length]
      ring
    · simp [Store.empty, seededSlides_map_data]
    · simp [Store.empty, seededSlides_map_data]
    · simp only [Store.empty, List.nil_append, Nat.zero_add, List.map_append,
        seededSlides_map_id]
      have hr : List.range' 0 ds.length ++ List.range' ds.length ds.length =
          List.range' 0 (ds.length + ds.length) := by
        simpa using List.range'_append_1 0 ds.length ds.length
      rw [hr]
      exact List.nodup_range' 0 (ds.length + ds.length)

/-- **C6.** For every Seeder run that finds zero files ending in ".json"
in the directory, the run terminates early without error: the store is
unchanged (no document inserted), the warning is the only signal after
connecting and reporting the zero count, and the connection is not closed
in this branch. -/
theorem seed_empty_dir_warns_no_close (env : SeedEnv) (st : Store)
    (hc : env.connectErr = none)
    (hempty : env.dirEntries.filter qualifies = []) :
    seedSlides env st = Except.ok
      ⟨st, [LogEvent.connected, LogEvent.foundFiles 0, LogEvent.warnNoFiles],
       false, none⟩ := by
  simp [seedSlides, hc, hempty]

/-- **C4.** Get-by-identifier round-trip: for every identifier that
appears in the sequence returned by a successful List call on a store
whose identifiers are unique (as the store's assignment guarantees), a
subsequent Get-by-identifier request with that identifier, the store
unchanged in between, succeeds with status 200 and returns the same
document that List returned for it. -/
theorem list_then_get_roundtrip (st : Store) (xs : List Slide) (sl : Slide)
    (hnd : (st.slides.map Slide.id).Nodup)
    (hlist : (getAllSlides none st).1 = ⟨200, Body.slideList xs⟩)
    (hmem : sl ∈ xs) :
    getSlideById none st (ReqId.valid sl.id) =
      (⟨200, Body.slideDoc sl⟩, st) := by
  have hxs : st.slides = xs := by
    simpa [getAllSlides, Store.findAll] using hlist
  simp only [getSlideById, Store.findById]
  rw [find?_id_eq_self_of_nodup st.slides sl hnd (hxs ▸ hmem)]

/-- **C5.** For every Get-by-identifier request whose identifier is
syntactically valid for the store but matches no persisted Slide, the
response is status 404 with body `{message: "Slide not found"}` and no
document payload; when a matching Slide exists, the response is status
200 with that Slide document as the body. -/
theorem get_by_id_found_or_not_found (st : Store) (n : Nat) :
    ((∀ sl ∈ st.slides, sl.id ≠ n) →
      getSlideById none st (ReqId.valid n) =
        (⟨404, Body.msgObj "Slide not found"⟩, st)) ∧
    ((∃ sl ∈ st.slides, sl.id = n) →
      ∃ sl, sl ∈ st.slides ∧ sl.id = n ∧
        getSlideById none st (ReqId.valid n) =
          (⟨200, Body.slideDoc sl⟩, st)) := by
  constructor
  · intro h
    have hfind : st.slides.find? (fun x => x.id == n) = none := by
      refine List.find?_eq_none.mpr (fun x hx => ?_)
      simp [h x hx]
    simp [getSlideById, Store.findById, hfind]
  · rintro ⟨sl, hmem, hid⟩
    have hsome : (st.slides.find? (fun x => x.id == n)).isSome := by
      rw [List.find?_isSome]
      exact ⟨sl, hmem, by simp [hid]⟩
    obtain ⟨y, hy⟩ := Option.isSome_iff_exists.mp hsome
    refine ⟨y, List.mem_of_find?_eq_some hy, ?_, ?_⟩
    · have := List.find?_some hy
      simpa using this
    · simp [getSlideById, Store.findById, hy]

/-- **C7.** For every Get-by-identifier request whose identifier does not
match the store's required identifier format, the response is the generic
store-error response, status 500 with body `{error: message}`, and is not
distinguished from genuine store errors (which likewise answer 500 with
`{error: message}`) by any dedicated 4xx category. -/
theorem malformed_id_conflated_with_store_error (st : Store) (s : String)
    (m : String) (rid : ReqId) :
    getSlideById none st (ReqId.malformed s) =
      (⟨500, Body.errObj (castErrMsg s)⟩, st) ∧
    getSlideById (some m) st rid = (⟨500, Body.errObj m⟩, st) :=
  ⟨rfl, rfl⟩

/-- **C8.** Both Query Service operations (List and Get-by-identifier)
are read-only and side-effect-free: for every request, on every outcome
(200, 404, or 500), the persisted Slide collection is unchanged after the
request. -/
theorem routes_read_only (dbErr : Option String) (st : Store) (rid : ReqId) :
    (getAllSlides dbErr st).2 = st ∧ (getSlideById dbErr st rid).2 = st := by
  constructor
  · cases dbErr <;> rfl
  · cases dbErr with
    | some m => rfl
    | none =>
      cases rid with
      | malformed s => rfl
      | valid n =>
        cases hfind : st.slides.find? (fun x => x.id == n) <;>
          simp [getSlideById, Store.findById, hfind]

/-- **C9.** The Seeder's qualifying-file filter is an exact,
case-sensitive suffix match on ".json": in an error-free run, the files
logged as inserted are exactly the directory entries whose name ends with
the lowercase string ".json", and the suffix check itself rejects the
upper-case variant ".JSON" while accepting ".json". -/
theorem filter_is_case_sensitive_json_suffix (env : SeedEnv)
    (ds : List Json)
    (hc : env.connectErr = none) (hcl : env.closeErr = none)
    (hp : (env.dirEntries.filter qualifies).map FileEntry.parsed =
      ds.map Except.ok)
    (hi : ∀ f ∈ env.dirEntries.filter qualifies, f.insertErr = none) :
    ∃ out : SeedOutcome,
      seedSlides env Store.empty = Except.ok out ∧
      insertedNames out.log =
        ((env.dirEntries.filter
            (fun f => strEndsWith f.name ".json")).map FileEntry.name) ∧
      strEndsWith "slide1.JSON" ".json" = false ∧
      strEndsWith "slide1.json" ".json" = true := by
  by_cases hne : (env.dirEntries.filter qualifies).length = 0
  · have hfil : env.dirEntries.filter qualifies = [] :=
      List.length_eq_zero.mp hne
    refine ⟨⟨Store.empty,
      [LogEvent.connected, LogEvent.foundFiles 0, LogEvent.warnNoFiles],
      false, none⟩, ?_, ?_, by decide, by decide⟩
    · simp [seedSlides, hc, hfil]
    · have : env.dirEntries.filter (fun f => strEndsWith f.name ".json") =
          env.dirEntries.filter qualifies := rfl
      rw [this, hfil]
      rfl
  · refine ⟨_, seedSlides_ok_run env Store.empty ds hc hcl hp hi hne,
      ?_, by decide, by decide⟩
    have hq : env.dirEntries.filter (fun f => strEndsWith f.name ".json") =
        env.dirEntries.filter qualifies := rfl
    rw [hq]
    have hmain := insertedNames_map_inserted (env.dirEntries.filter qualifies)
    simp only [insertedNames, List.filterMap_append, List.filterMap_cons]
      at hmain ⊢
    simp [hmain]

/-- **C10.** Every error raised inside the Seeder's main block, including
a failure to establish the store connection in the first step, is caught
by the single top-level handler, which still closes the store connection;
`seedSlides` then completes normally, propagating no rejection to its
caller, provided that closing the connection in the handler itself does
not fail. -/
theorem seed_catches_all_errors (env : SeedEnv) (st : Store)
    (hcl : env.closeErr = none) :
    ∃ out : SeedOutcome,
      seedSlides env st = Except.ok out ∧
      (∀ e, out.caughtError = some e → out.closed = true) ∧
      (∀ e, env.connectErr = some e →
        out.caughtError = some e ∧ out.closed = true) := by
  cases hc : env.connectErr with
  | some e =>
    refine ⟨⟨st, [LogEvent.seedError e], true, some e⟩, ?_, ?_, ?_⟩
    · simp [seedSlides, hc, closeInCatch, hcl]
    · intro e' _
      rfl
    · intro e' h
      obtain rfl : e = e' := Option.some.inj h
      exact ⟨rfl, rfl⟩
  | none =>
    by_cases hne : (env.dirEntries.filter qualifies).length = 0
    · refine ⟨⟨st,
        [LogEvent.connected, LogEvent.foundFiles 0, LogEvent.warnNoFiles],
        false, none⟩, ?_, ?_, ?_⟩
      · exact seed_empty_dir_warns_no_close env st hc
          (List.length_eq_zero.mp hne)
      · intro e' h
        cases h
      · intro e' h
        cases h
    · rcases hloop : seedLoop (env.dirEntries.filter qualifies) st
          [LogEvent.connected,
           LogEvent.foundFiles (env.dirEntries.filter qualifies).length]
        with ⟨st', log', err⟩
      cases err with
      | some e =>
        refine ⟨⟨st', log' ++ [LogEvent.seedError e], true, some e⟩,
          ?_, ?_, ?_⟩
        · simp only [seedSlides, hc]
          rw [if_neg hne, hloop]
          simp [closeInCatch, hcl]
        · intro e' _
          rfl
        · intro e' h
          cases h
      | none =>
        refine ⟨⟨st', log' ++ [LogEvent.success], true, none⟩, ?_, ?_, ?_⟩
        · simp only [seedSlides, hc]
          rw [if_neg hne, hloop, hcl]
        · intro e' h
          cases h
        · intro e' h
          cases h

/-! ## Concrete witness data -/

/-- A sample slide payload. -/
def sampleA : Json :=
  Json.obj [("title", Json.str "Intro"), ("order", Json.num 1)]

/-- Another sample slide payload. -/
def sampleB : Json := Json.arr [Json.num 2, Json.bool true]

/-- A well-formed slide file. -/
def fileA : FileEntry := ⟨"a.json", Except.ok sampleA, none⟩

/-- Another well-formed slide file. -/
def fileB : FileEntry := ⟨"b.json", Except.ok sampleB, none⟩

/-- A slide file whose content is malformed JSON. -/
def fileBad : FileEntry := ⟨"c.json", Except.error "Unexpected token", none⟩

/-- A directory entry that is not a `.json` file. -/
def fileMd : FileEntry := ⟨"readme.md", Except.ok Json.null, none⟩

/-- A directory entry with an upper-case `.JSON` suffix. -/
def fileUpper : FileEntry := ⟨"d.JSON", Except.ok Json.null, none⟩

/-- An environment whose qualifying files all succeed. -/
def envGood : SeedEnv := ⟨none, [fileA, fileMd, fileB], none⟩

/-- An environment whose second qualifying file is malformed. -/
def envBad : SeedEnv := ⟨none, [fileA, fileBad, fileB], none⟩

/-- An environment with no qualifying file at all. -/
def envNoJson : SeedEnv := ⟨none, [fileMd], none⟩

/-- An environment mixing `.json` and `.JSON` entries. -/
def envMixedCase : SeedEnv := ⟨none, [fileA, fileUpper], none⟩

/-- An environment where establishing the connection fails. -/
def envConnFail : SeedEnv :=
  ⟨some "connect ECONNREFUSED", [fileA], none⟩

/-- A concrete two-document store. -/
def storeW : Store := ⟨[⟨0, sampleA⟩, ⟨1, sampleB⟩], 2⟩

/-! ## Witnesses -/

/-- Witness for C1: the two valid `.json` files of `envGood` are listed
back after seeding. -/
theorem seed_then_list_returns_all_files_witness :
    envGood.connectErr = none ∧ envGood.closeErr = none ∧
    (envGood.dirEntries.filter qualifies).map FileEntry.parsed =
      [sampleA, sampleB].map Except.ok ∧
    (∀ f ∈ envGood.dirEntries.filter qualifies, f.insertErr = none) ∧
    (∃ out : SeedOutcome,
      seedSlides envGood Store.empty = Except.ok out ∧
      out.caughtError = none ∧
      (getAllSlides none out.store).1 =
        ⟨200, Body.slideList out.store.slides⟩ ∧
      out.store.slides.length = (envGood.dirEntries.filter qualifies).length ∧
      out.store.slides.map Slide.data = [sampleA, sampleB]) :=
  ⟨rfl, rfl, rfl, by decide,
    seed_then_list_returns_all_files envGood [sampleA, sampleB]
      rfl rfl rfl (by decide)⟩

/-- Witness for C2: in `envBad` the malformed second file aborts the run
after the first file was persisted. -/
theorem seed_aborts_on_first_error_witness :
    envBad.dirEntries.filter qualifies = [fileA] ++ fileBad :: [fileB] ∧
    failsWith fileBad "Unexpected token" ∧
    seedSlides envBad Store.empty = Except.ok
      ⟨⟨seededSlides 0 [sampleA], [sampleA].length⟩,
       [LogEvent.connected,
        LogEvent.foundFiles ([fileA] ++ fileBad :: [fileB]).length]
         ++ [fileA].map (fun f => LogEvent.inserted f.name)
         ++ [LogEvent.seedError "Unexpected token"],
       true, some "Unexpected token"⟩ ∧
    (seededSlides 0 [sampleA]).map Slide.data = [sampleA] ∧
    ([sampleA] : List Json).length = ([fileA] : List FileEntry).length :=
  ⟨rfl, Or.inl rfl,
    seed_aborts_on_first_error envBad [fileA] fileBad [fileB] [sampleA]
      "Unexpected token" rfl rfl rfl rfl (by decide) (Or.inl rfl)⟩

/-- Witness for C3: seeding `envGood` twice doubles the document count. -/
theorem seed_not_idempotent_witness :
    envGood.connectErr = none ∧ envGood.closeErr = none ∧
    (∃ out1 out2 : SeedOutcome,
      seedSlides envGood Store.empty = Except.ok out1 ∧
      seedSlides envGood out1.store = Except.ok out2 ∧
      out2.store.slides.length = 2 * out1.store.slides.length ∧
      out1.store.slides.map Slide.data = [sampleA, sampleB] ∧
      out2.store.slides.map Slide.data =
        [sampleA, sampleB] ++ [sampleA, sampleB] ∧
      (out2.store.slides.map Slide.id).Nodup) :=
  ⟨rfl, rfl,
    seed_not_idempotent envGood [sampleA, sampleB] rfl rfl rfl (by decide)⟩

/-- Witness for C4: identifier 1 from the List response of `storeW` is
fetched back as the same document. -/
theorem list_then_get_roundtrip_witness :
    (storeW.slides.map Slide.id).Nodup ∧
    (getAllSlides none storeW).1 = ⟨200, Body.slideList storeW.slides⟩ ∧
    (⟨1, sampleB⟩ : Slide) ∈ storeW.slides ∧
    getSlideById none storeW (ReqId.valid 1) =
      (⟨200, Body.slideDoc ⟨1, sampleB⟩⟩, storeW) :=
  ⟨by decide, rfl, List.Mem.tail _ (List.Mem.head _),
    list_then_get_roundtrip storeW storeW.slides ⟨1, sampleB⟩
      (by decide) rfl (List.Mem.tail _ (List.Mem.head _))⟩

/-- Witness for C5: identifier 5 is absent from `storeW` and answers 404;
identifier 1 is present and answers 200 with its document. -/
theorem get_by_id_found_or_not_found_witness :
    (∀ sl ∈ storeW.slides, sl.id ≠ 5) ∧
    getSlideById none storeW (ReqId.valid 5) =
      (⟨404, Body.msgObj "Slide not found"⟩, storeW) ∧
    (∃ sl ∈ storeW.slides, sl.id = 1) ∧
    (∃ sl, sl ∈ storeW.slides ∧ sl.id = 1 ∧
      getSlideById none storeW (ReqId.valid 1) =
        (⟨200, Body.slideDoc sl⟩, storeW)) :=
  ⟨by decide,
   (get_by_id_found_or_not_found storeW 5).1 (by decide),
   ⟨⟨1, sampleB⟩, List.Mem.tail _ (List.Mem.head _), rfl⟩,
   (get_by_id_found_or_not_found storeW 1).2
     ⟨⟨1, sampleB⟩, List.Mem.tail _ (List.Mem.head _), rfl⟩⟩

/-- Witness for C6: the directory of `envNoJson` holds no `.json` file,
so the run only warns and leaves the connection open. -/
theorem seed_empty_dir_warns_no_close_witness :
    envNoJson.connectErr = none ∧
    envNoJson.dirEntries.filter qualifies = [] ∧
    seedSlides envNoJson Store.empty = Except.ok
      ⟨Store.empty,
       [LogEvent.connected, LogEvent.foundFiles 0, LogEvent.warnNoFiles],
       false, none⟩ :=
  ⟨rfl, rfl, seed_empty_dir_warns_no_close envNoJson Store.empty rfl rfl⟩

/-- Witness for C9: in `envMixedCase` only `a.json` is inserted while
`d.JSON` is ignored. -/
theorem filter_is_case_sensitive_json_suffix_witness :
    envMixedCase.connectErr = none ∧ envMixedCase.closeErr = none ∧
    (∃ out : SeedOutcome,
      seedSlides envMixedCase Store.empty = Except.ok out ∧
      insertedNames out.log =
        ((envMixedCase.dirEntries.filter
            (fun f => strEndsWith f.name ".json")).map FileEntry.name) ∧
      strEndsWith "slide1.JSON" ".json" = false ∧
      strEndsWith "slide1.json" ".json" = true) :=
  ⟨rfl, rfl,
    filter_is_case_sensitive_json_suffix envMixedCase [sampleA]
      rfl rfl rfl (by decide)⟩

/-- Witness for C10: a failed connection in `envConnFail` is caught, the
connection is closed, and the run still resolves. -/
theorem seed_catches_all_errors_witness :
    envConnFail.closeErr = none ∧
    (∃ out : SeedOutcome,
      seedSlides envConnFail Store.empty = Except.ok out ∧
      (∀ e, out.caughtError = some e → out.closed = true) ∧
      (∀ e, envConnFail.connectErr = some e →
        out.caughtError = some e ∧ out.closed = true)) :=
  ⟨rfl, seed_catches_all_errors envConnFail Store.empty rfl⟩
